import Mathlib

/-!
Verification development for the Bella Fruita soft-PLC conveyor controller.

The definitions below are a shallow embedding of the Python sources:
timestamps are rationals, history buffers are lists (oldest first, as the
deques are appended), dictionaries are association lists, and fallible
calls return Except values.  The rule scan is modelled exactly as
rule_engine.py stages it: RuleEngine.evaluate passes its plain state dict
as the rules' `mem` argument and calls `rule.action(controller, state)`
with one positional argument fewer than every rules.py action declares, so
a condition that reaches `mem.mode()` raises AttributeError and every
action call raises TypeError at binding time; both raises are modelled as
Except errors that the engine loop logs and swallows.  Each definition's
doc comment names the Python function or class it embeds.
-/

namespace BellaFruita

/-! ## History buffer entries (logging_system.py LogEntry)

An input-history entry stores coil samples (label to bool); an output-history
entry stores the register samples consulted by the comms watchdog (label to
int).  Lists are kept oldest-first, matching deque append order, so the
Python `reversed(logs)` is `List.reverse`. -/

/-- Embeds a logging_system.LogEntry for the input history: a timestamp and
the coil data mapping read in that poll.  A label absent from the mapping
models Python's `dict.get` returning None. -/
structure InEntry where
  timestamp : ℚ
  data : List (String × Bool)
deriving DecidableEq, Repr

/-- Embeds a logging_system.LogEntry for the output history, keeping the
register portion (check_comms_health only ever looks up the VERSION key). -/
structure OutEntry where
  timestamp : ℚ
  data : List (String × Int)
deriving DecidableEq, Repr

/-- Python's `entry.data.get(signal)` for an input entry: the sampled value
of a label, or none when the label is missing from the sample. -/
def sample (e : InEntry) (signal : String) : Option Bool :=
  e.data.lookup signal

/-- The VERSION register label from io_mapping.MODBUS_MAP. -/
def kVERSION : String := "VERSION"

/-- Python's `entry.data.get('VERSION', 0)` in check_comms_health: missing
VERSION keys count as 0. -/
def entryVersion (e : OutEntry) : Int :=
  (e.data.lookup kVERSION).getD 0

/-- The `values_in_window` collection loop shared by extended_hold and
_detect_edge (edge_detector.py lines 96-99 / 142-145): walk the history
newest-to-oldest and stop at the first entry with `timestamp < cutoff`.
The result is newest-first, exactly as the Python list is built. -/
def windowSamples (logs : List InEntry) (cutoff : ℚ) : List InEntry :=
  logs.reverse.takeWhile (fun e => cutoff ≤ e.timestamp)

/-- Embeds EdgeDetectorDict.extended_hold (edge_detector.py lines 65-116),
identical to Procon.extended_hold (modbus/api.py lines 303-355): require at
least two entries of history, collect the samples inside the hold window,
fail when the window is empty or its oldest collected entry is strictly
newer than the cutoff, and otherwise demand that every collected sample of
the signal equal `value` (a missing label reads as None and so mismatches). -/
def extended_hold (logs : List InEntry) (now : ℚ) (signal : String)
    (value : Bool) (holdSeconds : ℚ) : Bool :=
  if logs.length < 2 then false
  else
    let cutoff := now - holdSeconds
    let w := windowSamples logs cutoff
    match w.getLast? with
    | Option.none => false
    | some oldest =>
      if cutoff < oldest.timestamp then false
      else w.all (fun e => sample e signal == some value)

/-- The adjacent-pair search of _detect_edge (edge_detector.py lines
154-164): scan a chronological list and report whether some adjacent pair
satisfies `pa` then `pb`. -/
def hasPairBy (pa pb : InEntry → Bool) : List InEntry → Bool
  | a :: b :: rest => (pa a && pb b) || hasPairBy pa pb (b :: rest)
  | _ => false

/-- Rising or falling, the two `edge_type` strings of _detect_edge. -/
inductive EdgeType where
  | rising
  | falling
deriving DecidableEq, Repr

/-- Embeds EdgeDetectorDict._detect_edge (edge_detector.py lines 118-165),
identical to Procon._detect_edge (modbus/api.py lines 357-403): require two
entries of history, collect the window (newest first), require two collected
entries, reverse to chronological order, and look for a False-then-True
(rising) or True-then-False (falling) adjacent pair of samples.  Python's
`current_val == False` is false for a missing (None) sample, hence the
comparison against `some` values. -/
def detect_edge (logs : List InEntry) (now : ℚ) (signal : String)
    (edge : EdgeType) (windowMs : ℚ) : Bool :=
  if logs.length < 2 then false
  else
    let cutoff := now - windowMs / 1000
    let w := windowSamples logs cutoff
    if w.length < 2 then false
    else
      match edge with
      | EdgeType.rising =>
          hasPairBy (fun e => sample e signal == some false)
            (fun e => sample e signal == some true) w.reverse
      | EdgeType.falling =>
          hasPairBy (fun e => sample e signal == some true)
            (fun e => sample e signal == some false) w.reverse

/-- EdgeDetectorDict.rising_edge: _detect_edge with edge_type 'rising'. -/
def rising_edge (logs : List InEntry) (now : ℚ) (signal : String)
    (windowMs : ℚ) : Bool :=
  detect_edge logs now signal EdgeType.rising windowMs

/-- EdgeDetectorDict.falling_edge: _detect_edge with edge_type 'falling'. -/
def falling_edge (logs : List InEntry) (now : ℚ) (signal : String)
    (windowMs : ℚ) : Bool :=
  detect_edge logs now signal EdgeType.falling windowMs

/-- Embeds LogManager.check_comms_health (logging_system.py lines 114-148):
true on an empty output history, false when the newest entry is older than
`now - timeout`, and otherwise a newest-to-oldest scan of the window for a
nonzero VERSION value, stopping at the first entry older than the cutoff. -/
def check_comms_health (logs : List OutEntry) (now timeoutSeconds : ℚ) : Bool :=
  match logs.reverse with
  | [] => true
  | newest :: rest =>
    let cutoff := now - timeoutSeconds
    if newest.timestamp < cutoff then false
    else
      ((newest :: rest).takeWhile (fun e => cutoff ≤ e.timestamp)).any
        (fun e => entryVersion e != 0)

/-! ## Values held by the engine state dict

The values that could live in RuleEngine.state (a plain Python dict, see
rule_engine.py line 106): mode strings, float timestamps, or None.
`MemValue.vnone` plays Python None's double role: it is both a storable
value and the default `dict.get` returns for an absent key, which is how
the rules use it (`mem.get('C3_Timer') is None` cannot tell the two
apart).  The MachineMemory class of src/mem.py, which the spec describes,
is instantiated nowhere in the repository; the engine hands the rules this
plain dict instead. -/

/-- A value stored in the engine state dict: a mode string, a numeric
timestamp or delay, or Python None. -/
inductive MemValue where
  | vstr (s : String)
  | vnum (q : ℚ)
  | vnone
deriving DecidableEq, Repr

/-- The reserved '_MODE' memory key of the spec's data model. -/
def kMODE : String := "_MODE"

/-- The C3_Timer key consulted by the C3ReadyTimer rule conditions. -/
def kC3Timer : String := "C3_Timer"

/-- The mode string ERROR_ESTOP as a dict value. -/
def sERROR_ESTOP : MemValue := MemValue.vstr "ERROR_ESTOP"

/-! ## Label resolution and Procon.set (io_mapping.py, modbus/api.py, modbus/mock.py)

Python values flowing into `set` are modelled by `PyVal`; crucially,
`isinstance(value, int)` is true for Python booleans (bool is a subclass of
int), which `isinstance_int` reproduces. -/

/-- A dynamically typed Python value passed to Procon.set. -/
inductive PyVal where
  | pybool (b : Bool)
  | pyint (n : Int)
  | pyfloat (q : ℚ)
  | pystr (s : String)
  | pynone
deriving DecidableEq, Repr

/-- Python `isinstance(value, bool)`. -/
def isinstance_bool : PyVal → Bool
  | PyVal.pybool _ => true
  | _ => false

/-- Python `isinstance(value, int)`: true for ints and for bools, since
Python's bool is a subclass of int. -/
def isinstance_int : PyVal → Bool
  | PyVal.pybool _ => true
  | PyVal.pyint _ => true
  | _ => false

/-- The two slot kinds of io_mapping.MODBUS_MAP. -/
inductive RegType where
  | coils
  | registers
deriving DecidableEq, Repr

/-- The INPUT device name. -/
def dINPUT : String := "INPUT"

/-- The OUTPUT device name. -/
def dOUTPUT : String := "OUTPUT"

/-- io_mapping.MODBUS_MAP INPUT coils, addresses 0-15. -/
def inputCoilLabels : List (Nat × String) :=
  [(0, "S1"), (1, "S2"), (2, "CS1"), (3, "CS2"), (4, "CS3"), (5, "M1_Trip"),
   (6, "M2_Trip"), (7, "E_Stop"), (8, "Manual_Select"), (9, "Auto_Select"),
   (10, "Klaar_Geweeg_Btn"), (11, "CPS_1"), (12, "CPS_2"), (13, "Reset_Btn"),
   (14, "PALM_Run_Signal"), (15, "DHLM_Trip_Signal")]

/-- io_mapping.MODBUS_MAP INPUT registers (none are defined). -/
def inputRegisterLabels : List (Nat × String) := []

/-- io_mapping.MODBUS_MAP OUTPUT coils, addresses 0-3. -/
def outputCoilLabels : List (Nat × String) :=
  [(0, "LED_GREEN"), (1, "MOTOR_2"), (2, "MOTOR_3"), (3, "LED_RED")]

/-- io_mapping.MODBUS_MAP OUTPUT registers: the VERSION heartbeat. -/
def outputRegisterLabels : List (Nat × String) :=
  [(0, "VERSION")]

/-- Python's str.upper() restricted to the ASCII labels of this system,
as a character list (the kernel-computable form of the comparison). -/
def upperStr (s : String) : List Char :=
  s.data.map Char.toUpper

/-- The case-insensitive label search of io_mapping.get_address inside one
address table (dict iteration order is insertion order, ascending here). -/
def findLabel (labels : List (Nat × String)) (label : String) : Option Nat :=
  (labels.find? (fun p => upperStr p.2 = upperStr label)).map (fun p => p.1)

/-- Embeds io_mapping.get_address without the optional reg_type argument:
uppercase the device, then search that device's coils table first and its
registers table second. -/
def get_address (device label : String) : Option (Nat × RegType) :=
  let d := upperStr device
  if d = upperStr dINPUT then
    match findLabel inputCoilLabels label with
    | some a => some (a, RegType.coils)
    | Option.none =>
        (findLabel inputRegisterLabels label).map (fun a => (a, RegType.registers))
  else if d = upperStr dOUTPUT then
    match findLabel outputCoilLabels label with
    | some a => some (a, RegType.coils)
    | Option.none =>
        (findLabel outputRegisterLabels label).map (fun a => (a, RegType.registers))
  else Option.none

/-- Insert-or-replace for the mock client's address-keyed dicts. -/
def assocUpdate {β : Type} (k : Nat) (v : β) :
    List (Nat × β) → List (Nat × β)
  | [] => [(k, v)]
  | (k', v') :: rest =>
      if k' = k then (k, v) :: rest else (k', v') :: assocUpdate k v rest

/-- Embeds the writeable stores of modbus/mock.py MockModbusClient:
`_coils` and `_holding_registers`.  write_register stores whatever value it
is handed (the mock performs no range or type check), hence PyVal values. -/
structure MockClient where
  coils : List (Nat × Bool)
  hregs : List (Nat × PyVal)
deriving DecidableEq, Repr

/-- MockModbusClient.write_coil: store and return a response (never None,
so the caller's success test passes). -/
def write_coil (c : MockClient) (addr : Nat) (b : Bool) : MockClient :=
  { c with coils := assocUpdate addr b c.coils }

/-- MockModbusClient.write_register: store and return a response. -/
def write_register (c : MockClient) (addr : Nat) (v : PyVal) : MockClient :=
  { c with hregs := assocUpdate addr v c.hregs }

/-- The fresh mock client of MockModbusClient.__init__: no coils written
yet and the default VERSION heartbeat 12345 at register 0. -/
def initMockClient : MockClient :=
  { coils := [], hregs := [(0, PyVal.pyint 12345)] }

/-- The two per-device clients held by Procon (modbus/api.py __init__). -/
structure ProconState where
  inputClient : MockClient
  outputClient : MockClient
deriving DecidableEq, Repr

/-- A Procon over two freshly constructed mock clients. -/
def initProcon : ProconState :=
  { inputClient := initMockClient, outputClient := initMockClient }

/-- Embeds Procon._set_to_device (modbus/api.py lines 159-202): resolve the
label on the device; an unresolved label fails without writing; a coil slot
demands `isinstance(value, bool)` and a register slot demands
`isinstance(value, int)` before the single-point write; the mock write
always returns a response, hence success. -/
def set_to_device (ps : ProconState) (device label : String) (value : PyVal) :
    Bool × ProconState :=
  match get_address device label with
  | Option.none => (false, ps)
  | some (addr, RegType.coils) =>
    match value with
    | PyVal.pybool b =>
        if upperStr device = upperStr dINPUT then
          (true, { ps with inputClient := write_coil ps.inputClient addr b })
        else
          (true, { ps with outputClient := write_coil ps.outputClient addr b })
    | _ => (false, ps)
  | some (addr, RegType.registers) =>
    if isinstance_int value then
      if upperStr device = upperStr dINPUT then
        (true, { ps with inputClient := write_register ps.inputClient addr value })
      else
        (true, { ps with outputClient := write_register ps.outputClient addr value })
    else (false, ps)

/-- Embeds the two-argument (unified) form of Procon.set (modbus/api.py
lines 144-152): try the OUTPUT device first, then the INPUT device. -/
def procon_set (ps : ProconState) (label : String) (value : PyVal) :
    Bool × ProconState :=
  let r1 := set_to_device ps dOUTPUT label value
  if r1.1 then r1 else set_to_device r1.2 dINPUT label value

/-- Whether one device's `_set_to_device` refuses the write outright: the
label does not resolve there, or the value fails the slot's isinstance
check. -/
def deviceRefuses (device label : String) (value : PyVal) : Bool :=
  match get_address device label with
  | Option.none => true
  | some (_, RegType.coils) => !(isinstance_bool value)
  | some (_, RegType.registers) => !(isinstance_int value)

/-- Whether the unified Procon.set refuses the write on both devices. -/
def setRefuses (label : String) (value : PyVal) : Bool :=
  deviceRefuses dOUTPUT label value && deviceRefuses dINPUT label value

/-! ## The rule engine scan loop (rule_engine.py RuleEngine.evaluate)

The loop structure of evaluate (lines 123-169) is modelled generically: a
rule carries its name, enabled flag and trigger bookkeeping, plus a
condition and an action as functions that either return a value or raise
(Except).  One `try` wraps both the condition call and the action call, and
an exception only appends an ERROR log entry before the loop moves on. -/

/-- A rule_engine.Rule as the engine sees it.  `δ` is the sensor-data type
handed to conditions, `σ` the persistent state dict.  The condition and the
action may raise, modelled with Except. -/
structure EngRule (δ σ : Type) where
  name : String
  enabled : Bool
  triggerCount : Nat
  lastTriggered : Option ℚ
  condition : δ → σ → Except String Bool
  action : σ → Except String σ

/-- The engine-owned mutable pieces touched by evaluate: the persistent
state dict, the per-scan active_rules list, and the controller's event log
(level and message pairs, appended by log_manager.error). -/
structure EngState (σ : Type) where
  state : σ
  activeRules : List String
  eventLog : List (String × String)

/-- The message format of the `except` clause in evaluate: Error in rule
NAME: e (the Python f-string quotes the rule name; the quote characters are
elided here, which no claim depends on). -/
def errMsg (name e : String) : String :=
  "Error in rule " ++ name ++ ": " ++ e

/-- The ERROR level string used by log_manager.error. -/
def lvlERROR : String := "ERROR"

/-- The rule loop of RuleEngine.evaluate after the active_rules clear:
skip disabled rules; evaluate the condition; on a raise, log ERROR and
continue; on a true condition append the rule's name to active_rules, stamp
last_triggered with the current time, increment trigger_count, then run the
action, logging ERROR and continuing if it raises.  Returns the updated
engine pieces together with the rules (whose counters live on the rule
objects in Python). -/
def evalRules {δ σ : Type} (now : ℚ) (data : δ) :
    List (EngRule δ σ) → EngState σ → EngState σ × List (EngRule δ σ)
  | [], es => (es, [])
  | r :: rs, es =>
    if r.enabled = false then
      let p := evalRules now data rs es
      (p.1, r :: p.2)
    else
      match r.condition data es.state with
      | Except.error e =>
        let p := evalRules now data rs
          { es with eventLog := es.eventLog ++ [(lvlERROR, errMsg r.name e)] }
        (p.1, r :: p.2)
      | Except.ok false =>
        let p := evalRules now data rs es
        (p.1, r :: p.2)
      | Except.ok true =>
        let r' := { r with triggerCount := r.triggerCount + 1,
                           lastTriggered := some now }
        let es1 := { es with activeRules := es.activeRules ++ [r.name] }
        match r.action es.state with
        | Except.error e =>
          let p := evalRules now data rs
            { es1 with eventLog := es1.eventLog ++ [(lvlERROR, errMsg r.name e)] }
          (p.1, r' :: p.2)
        | Except.ok s' =>
          let p := evalRules now data rs { es1 with state := s' }
          (p.1, r' :: p.2)

/-- RuleEngine.evaluate (rule_engine.py lines 123-169): clear active_rules
(state is untouched by the clear), then run the rule loop. -/
def evaluate {δ σ : Type} (now : ℚ) (rules : List (EngRule δ σ)) (data : δ)
    (es : EngState σ) : EngState σ × List (EngRule δ σ) :=
  evalRules now data rules { es with activeRules := [] }

/-! ## The feeder rule set as the engine actually invokes it (rules.py)

Every rules.py condition is declared `condition(self, procon, mem)` and
every action `action(self, controller, procon, mem)`, but
RuleEngine.evaluate calls `rule.condition(data_with_edges, self.state)` and
`rule.action(self.controller, self.state)` (rule_engine.py lines 160 and
166).  So inside a condition `procon` is bound to the EdgeDetectorDict (a
dict subclass: `.get`, `.extended_hold`, `.rising_edge` all work) and `mem`
is bound to the engine's plain state dict, which has no `mode`, `set_mode`
or `set` methods: the moment a condition evaluates `mem.mode()` Python
raises AttributeError.  Every action call is one positional argument short
of its signature and raises TypeError at binding time, before any statement
of the body runs.  Both raises land in the `except` clause of the loop,
which logs ERROR and moves on.

Each rule below is the EngRule the engine sees: the condition is the Python
condition body evaluated left-to-right with short-circuiting until it
either returns or first touches `mem.mode()` (then `Except.error
msgAttrErr`), and the action is the uniform TypeError.  The MachineMemory
class the rules were written against is never instantiated in the
repository, so this mismatch holds on every scan. -/

/-- The per-scan inputs a condition can consult: the fresh sensor-data dict
(labels to coil readings; `dict.get` of a missing label yields None, which
every condition uses truthily, so Bool loses nothing), the input history
behind `extended_hold`, and the wall clock `time.time()`. -/
structure ScanData where
  data : List (String × Bool)
  logs : List InEntry
  now : ℚ
deriving DecidableEq, Repr

/-- `procon.get(label)` as the conditions use it: dict.get with a truthiness
test, a missing label reading as falsy None. -/
def getTruthy (d : List (String × Bool)) (k : String) : Bool :=
  (d.lookup k).getD false

/-- The engine's plain state dict (rule_engine.py line 106). -/
abbrev PyDict : Type := List (String × MemValue)

/-- `mem.get(key)` on the plain state dict: Python dict.get, whose None
default coincides with a stored None. -/
def pyGet (d : PyDict) (k : String) : MemValue :=
  (List.lookup k d).getD MemValue.vnone

/-- The state a rule action could touch: the engine's state dict together
with the four output coils of io_mapping.MODBUS_MAP that `procon.set`
writes.  Bundling them makes the untouchedness of all of them one
statement. -/
structure StagedState where
  dict : PyDict
  ledGreen : Bool
  motor2 : Bool
  motor3 : Bool
  ledRed : Bool

/-- The exception text of the action-arity mismatch, quotes elided: every
`rule.action(self.controller, self.state)` call raises TypeError because
the four-parameter rules.py action is missing its final argument. -/
def msgTypeError : String :=
  "TypeError: action missing 1 required positional argument: mem"

/-- The exception text of `mem.mode()` on the plain state dict, quotes
elided: dict has no attribute mode. -/
def msgAttrErr : String :=
  "AttributeError: dict object has no attribute mode"

/-- What every rules.py action does when the engine calls it with one
positional argument too few: raise TypeError before the body runs, leaving
dict and coils untouched. -/
def stagedAction : StagedState → Except String StagedState :=
  fun _ => Except.error msgTypeError

/-- CommsHealthCheckRule: `condition` returns True unconditionally (line
35); the action would be first to run and first to raise TypeError. -/
def CommsHealthCheckRule : EngRule ScanData StagedState :=
  { name := "Comms Health Monitor", enabled := true, triggerCount := 0,
    lastTriggered := Option.none,
    condition := fun _ _ => Except.ok true,
    action := stagedAction }

/-- CommsAcknowledgeRule: the condition's first conjunct is `mem.mode() ==
ERROR_COMMS` (line 86), raising AttributeError before anything else. -/
def CommsAcknowledgeRule : EngRule ScanData StagedState :=
  { name := "Comms Acknowledge", enabled := true, triggerCount := 0,
    lastTriggered := Option.none,
    condition := fun _ _ => Except.error msgAttrErr,
    action := stagedAction }

/-- CommsResetRule: first conjunct `mem.mode() == ERROR_COMMS_ACK` (line
101) raises AttributeError. -/
def CommsResetRule : EngRule ScanData StagedState :=
  { name := "Comms Reset", enabled := true, triggerCount := 0,
    lastTriggered := Option.none,
    condition := fun _ _ => Except.error msgAttrErr,
    action := stagedAction }

/-- ManualModeRule: `procon.get(Manual_Select) and mem.mode() != ...` (lines
173-175).  A falsy Manual_Select short-circuits to a falsy return; a truthy
one reaches `mem.mode()` and raises. -/
def ManualModeRule : EngRule ScanData StagedState :=
  { name := "Manual Mode", enabled := true, triggerCount := 0,
    lastTriggered := Option.none,
    condition := fun d _ =>
      if getTruthy d.data ("Manual_Select") then Except.error msgAttrErr
      else Except.ok false,
    action := stagedAction }

/-- ReadyRule: the condition computes `immediate_ok`, `trips_stable` and
`safety_ok` from plain `procon.get` levels without raising, then
unconditionally executes `current_mode = mem.mode()` (line 145) and raises
AttributeError on every scan, whatever the sensor levels are. -/
def ReadyRule : EngRule ScanData StagedState :=
  { name := "System Ready Check", enabled := true, triggerCount := 0,
    lastTriggered := Option.none,
    condition := fun _ _ => Except.error msgAttrErr,
    action := stagedAction }

/-- ClearReadyRule: `trip_violations` is three raise-free extended_hold
calls on the input history (lines 198-202); a falsy result short-circuits
the return, a truthy one reaches `mem.mode()` and raises. -/
def ClearReadyRule : EngRule ScanData StagedState :=
  { name := "Clear Ready State", enabled := true, triggerCount := 0,
    lastTriggered := Option.none,
    condition := fun d _ =>
      if extended_hold d.logs d.now ("M1_Trip") false 1
          || extended_hold d.logs d.now ("M2_Trip") false 1
          || extended_hold d.logs d.now ("DHLM_Trip_Signal") false 1 then
        Except.error msgAttrErr
      else Except.ok false,
    action := stagedAction }

/-- C3ReadyTimerStart: `not procon.get(S1) and mem.get(C3_Timer) is None
and mem.mode() != ERROR_ESTOP` (lines 260-264).  `mem.get` works on the
plain dict; only when the first two conjuncts hold does `mem.mode()` run
and raise. -/
def C3ReadyTimerStart : EngRule ScanData StagedState :=
  { name := "Start Timer When S1 Is broken", enabled := true,
    triggerCount := 0, lastTriggered := Option.none,
    condition := fun d s =>
      if getTruthy d.data ("S1") then Except.ok false
      else if pyGet s.dict kC3Timer = MemValue.vnone then
        Except.error msgAttrErr
      else Except.ok false,
    action := stagedAction }

/-- C3ReadyTimerReset: `procon.get(S1) and mem.get(C3_Timer) is not None`
(lines 278-279) never touches `mem.mode()` and cannot raise. -/
def C3ReadyTimerReset : EngRule ScanData StagedState :=
  { name := "Reset Timer When S1 Is made", enabled := true,
    triggerCount := 0, lastTriggered := Option.none,
    condition := fun d s =>
      Except.ok (getTruthy d.data ("S1")
        && decide (pyGet s.dict kC3Timer ≠ MemValue.vnone)),
    action := stagedAction }

/-- CratePositionsSensorLedOn: `not procon.get(CPS_1) or not
procon.get(CPS_2)` (lines 294-295), raise-free. -/
def CratePositionsSensorLedOn : EngRule ScanData StagedState :=
  { name := "Crate Positioning On", enabled := true, triggerCount := 0,
    lastTriggered := Option.none,
    condition := fun d _ =>
      Except.ok (!getTruthy d.data ("CPS_1") || !getTruthy d.data ("CPS_2")),
    action := stagedAction }

/-- CratePositionsSensorLedOff: `procon.get(CPS_1) and procon.get(CPS_2)`
(lines 310-311), raise-free. -/
def CratePositionsSensorLedOff : EngRule ScanData StagedState :=
  { name := "Crate Positioning Off", enabled := true, triggerCount := 0,
    lastTriggered := Option.none,
    condition := fun d _ =>
      Except.ok (getTruthy d.data ("CPS_1") && getTruthy d.data ("CPS_2")),
    action := stagedAction }

/-- InitiateMoveC3toC2: first conjunct `mem.mode() == READY` (line 327)
raises AttributeError. -/
def InitiateMoveC3toC2 : EngRule ScanData StagedState :=
  { name := "Initiate Move C3→C2", enabled := true, triggerCount := 0,
    lastTriggered := Option.none,
    condition := fun _ _ => Except.error msgAttrErr,
    action := stagedAction }

/-- StartMovingC3toC2AfterDelay: the condition body runs `mode =
mem.mode()` unconditionally (line 362) and raises. -/
def StartMovingC3toC2AfterDelay : EngRule ScanData StagedState :=
  { name := "Start Moving C3→C2 After Delay", enabled := true,
    triggerCount := 0, lastTriggered := Option.none,
    condition := fun _ _ => Except.error msgAttrErr,
    action := stagedAction }

/-- CompleteMoveC3toC2: first conjunct `mem.mode() == MOVING_C3_TO_C2`
(line 400) raises. -/
def CompleteMoveC3toC2 : EngRule ScanData StagedState :=
  { name := "Complete Move C3→C2", enabled := true, triggerCount := 0,
    lastTriggered := Option.none,
    condition := fun _ _ => Except.error msgAttrErr,
    action := stagedAction }

/-- InitiateMoveC2toPalm: first conjunct `mem.mode() == READY` (line 424)
raises before the rising_edge call is reached. -/
def InitiateMoveC2toPalm : EngRule ScanData StagedState :=
  { name := "Initiate Move C2→PALM", enabled := true, triggerCount := 0,
    lastTriggered := Option.none,
    condition := fun _ _ => Except.error msgAttrErr,
    action := stagedAction }

/-- CompleteMoveC2toPalm: first conjunct `mem.mode() == MOVING_C2_TO_PALM`
(line 448) raises. -/
def CompleteMoveC2toPalm : EngRule ScanData StagedState :=
  { name := "Complete Move C2→PALM", enabled := true, triggerCount := 0,
    lastTriggered := Option.none,
    condition := fun _ _ => Except.error msgAttrErr,
    action := stagedAction }

/-- InitiateMoveBoth: first conjunct `mem.mode() == READY` (line 475)
raises. -/
def InitiateMoveBoth : EngRule ScanData StagedState :=
  { name := "Initiate Move Both", enabled := true, triggerCount := 0,
    lastTriggered := Option.none,
    condition := fun _ _ => Except.error msgAttrErr,
    action := stagedAction }

/-- StartMovingMotor3AfterDelay: the condition body runs `mode =
mem.mode()` unconditionally (line 525) and raises. -/
def StartMovingMotor3AfterDelay : EngRule ScanData StagedState :=
  { name := "Start Moving Motor 3 After Delay", enabled := true,
    triggerCount := 0, lastTriggered := Option.none,
    condition := fun _ _ => Except.error msgAttrErr,
    action := stagedAction }

/-- CompleteMoveBoth: first conjunct `mem.mode() == MOVING_BOTH` (line 561)
raises. -/
def CompleteMoveBoth : EngRule ScanData StagedState :=
  { name := "Complete Move Both", enabled := true, triggerCount := 0,
    lastTriggered := Option.none,
    condition := fun _ _ => Except.error msgAttrErr,
    action := stagedAction }

/-- EmergencyStopRule: the condition is a single
`procon.extended_hold(E_Stop, False, 1.0)` on the input history (line 589),
raise-free; the action, which would stop both motors, clear memory and set
ERROR_ESTOP, raises TypeError like every other. -/
def EmergencyStopRule : EngRule ScanData StagedState :=
  { name := "Emergency Stop", enabled := true, triggerCount := 0,
    lastTriggered := Option.none,
    condition := fun d _ =>
      Except.ok (extended_hold d.logs d.now ("E_Stop") false 1),
    action := stagedAction }

/-- EmergencyStopResetRule: first conjunct `mem.mode() == ERROR_ESTOP`
(line 609) raises. -/
def EmergencyStopResetRule : EngRule ScanData StagedState :=
  { name := "Emergency Stop Reset", enabled := true, triggerCount := 0,
    lastTriggered := Option.none,
    condition := fun _ _ => Except.error msgAttrErr,
    action := stagedAction }

/-- rules.setup_rules: the twenty rules in the order they are added to the
engine (rules.py lines 635-671), emergency overrides last. -/
def setup_rules : List (EngRule ScanData StagedState) :=
  [CommsHealthCheckRule, CommsAcknowledgeRule, CommsResetRule,
   ManualModeRule, ReadyRule, ClearReadyRule,
   C3ReadyTimerStart, C3ReadyTimerReset,
   CratePositionsSensorLedOn, CratePositionsSensorLedOff,
   InitiateMoveC3toC2, StartMovingC3toC2AfterDelay, CompleteMoveC3toC2,
   InitiateMoveC2toPalm, CompleteMoveC2toPalm,
   InitiateMoveBoth, StartMovingMotor3AfterDelay, CompleteMoveBoth,
   EmergencyStopRule, EmergencyStopResetRule]

/-! ## Concrete test fixtures used by counterexamples and witnesses -/

/-- The E_Stop input label. -/
def lEStop : String := "E_Stop"

/-- The M1_Trip input label. -/
def lM1Trip : String := "M1_Trip"

/-- The Klaar_Geweeg_Btn input label. -/
def lKlaar : String := "Klaar_Geweeg_Btn"

/-- A single-entry input history with E_Stop sampled false at time 0. -/
def cexHoldLogs : List InEntry :=
  [⟨0, [("E_Stop", false)]⟩]

/-- A two-entry input history with E_Stop sampled false at times 0 and 1. -/
def witHoldLogs : List InEntry :=
  [⟨0, [("E_Stop", false)]⟩, ⟨1, [("E_Stop", false)]⟩]

/-- A two-entry input history with a false-then-true transition of
Klaar_Geweeg_Btn between times 0 and 1. -/
def edgeLogs : List InEntry :=
  [⟨0, [("Klaar_Geweeg_Btn", false)]⟩, ⟨1, [("Klaar_Geweeg_Btn", true)]⟩]

/-- A single-entry output history with a live VERSION heartbeat at time 0. -/
def commLogs : List OutEntry :=
  [⟨0, [("VERSION", 5)]⟩]

/-- The MOTOR_2 output label. -/
def lMOTOR2 : String := "MOTOR_2"

/-- A label absent from every table of the label map. -/
def lUnknown : String := "Bogus_Label"

/-- A concrete exception message for the condition-raising fixture. -/
def msgBoom : String := "boom"

/-- A concrete exception message for the action-raising fixture. -/
def msgKaput : String := "kaput"

/-- A concrete engine rule over Nat data and state whose condition raises. -/
def condRaisingRule : EngRule Nat Nat :=
  { name := "cond-raiser", enabled := true, triggerCount := 0,
    lastTriggered := Option.none,
    condition := fun _ _ => Except.error msgBoom,
    action := fun s => Except.ok s }

/-- A concrete engine rule whose condition holds and whose action raises. -/
def actRaisingRule : EngRule Nat Nat :=
  { name := "act-raiser", enabled := true, triggerCount := 3,
    lastTriggered := Option.none,
    condition := fun _ _ => Except.ok true,
    action := fun _ => Except.error msgKaput }

/-- A concrete engine state over Nat state for the engine witnesses. -/
def engSt0 : EngState Nat :=
  { state := 7, activeRules := ["stale"], eventLog := [] }

/-- The S1 input label. -/
def lS1 : String := "S1"

/-- Scan data for the E-Stop scenario: the E-Stop hold fires (E_Stop
sampled false at times 0 and 1, scan at time 1) while the live levels are
otherwise nominal. -/
def estopScanData : ScanData :=
  { data := [("S1", true), ("CPS_1", true), ("CPS_2", true)],
    logs := witHoldLogs, now := 1 }

/-- A controller state with both motor coils energised and an empty engine
state dict. -/
def motorsOnState : StagedState :=
  { dict := [], ledGreen := true, motor2 := true, motor3 := true,
    ledRed := false }

/-- The engine pieces at the start of the E-Stop scan: both motors on. -/
def estopEngSt : EngState StagedState :=
  { state := motorsOnState, activeRules := [], eventLog := [] }

/-- A non-empty engine state dict: a stored C3 dwell timestamp. -/
def dict7 : PyDict :=
  [(kC3Timer, MemValue.vnum 5)]

/-- The engine pieces at the start of an E-Stop scan with the non-empty
dict dict7 and both motors on. -/
def estopEngSt7 : EngState StagedState :=
  { state := { dict := dict7, ledGreen := true, motor2 := true,
               motor3 := true, ledRed := false },
    activeRules := [], eventLog := [] }

/-- A cold-boot input history of three samples at times 0, 1 and 2 in which
E_Stop and all three trip signals read true throughout: every trip has
objectively been held true well over one second by time 2. -/
def coldLogs : List InEntry :=
  [⟨0, [("E_Stop", true), ("M1_Trip", true), ("M2_Trip", true),
        ("DHLM_Trip_Signal", true)]⟩,
   ⟨1, [("E_Stop", true), ("M1_Trip", true), ("M2_Trip", true),
        ("DHLM_Trip_Signal", true)]⟩,
   ⟨2, [("E_Stop", true), ("M1_Trip", true), ("M2_Trip", true),
        ("DHLM_Trip_Signal", true)]⟩]

/-- Scan data for the cold-boot-to-READY scenario: every signal ReadyRule
consults reads true, Manual_Select is off, and the history coldLogs shows
the trips held true. -/
def readyStagedData : ScanData :=
  { data := [("Auto_Select", true), ("E_Stop", true), ("M1_Trip", true),
             ("M2_Trip", true), ("DHLM_Trip_Signal", true), ("S1", true),
             ("S2", true), ("CPS_1", true), ("CPS_2", true),
             ("Manual_Select", false)],
    logs := coldLogs, now := 2 }

/-- The engine pieces of a fresh controller: empty state dict, all output
coils down. -/
def readyEngSt : EngState StagedState :=
  { state := { dict := [], ledGreen := false, motor2 := false,
               motor3 := false, ledRed := false },
    activeRules := [], eventLog := [] }

/-! ## Helper lemmas on time-windowed history scans -/

/-- Membership in the newest-to-oldest window collection of a
timestamp-descending list: exactly the listed elements at or after the
cutoff. -/
theorem mem_takeWhile_ge {α : Type} (ts : α → ℚ) (c : ℚ) :
    ∀ l : List α, l.Pairwise (fun a b => ts b ≤ ts a) →
      ∀ x, (x ∈ l.takeWhile (fun e => decide (c ≤ ts e)) ↔ x ∈ l ∧ c ≤ ts x) := by
  intro l
  induction l with
  | nil => intro _ x; simp
  | cons a t ih =>
    intro hp x
    rcases List.pairwise_cons.mp hp with ⟨ha, ht⟩
    by_cases hc : c ≤ ts a
    · rw [List.takeWhile_cons_of_pos (by simpa using hc)]
      rw [List.mem_cons, List.mem_cons, ih ht x]
      constructor
      · rintro (rfl | ⟨hx, hcx⟩)
        · exact ⟨Or.inl rfl, hc⟩
        · exact ⟨Or.inr hx, hcx⟩
      · rintro ⟨rfl | hx, hcx⟩
        · exact Or.inl rfl
        · exact Or.inr ⟨hx, hcx⟩
    · rw [List.takeWhile_cons_of_neg (by simpa using hc)]
      simp only [List.not_mem_nil, false_iff]
      rintro ⟨hx, hcx⟩
      rcases List.mem_cons.mp hx with rfl | hx
      · exact hc hcx
      · exact hc (le_trans hcx (ha x hx))

/-- In a timestamp-descending list the last element is the oldest. -/
theorem getLast_ts_le {α : Type} (ts : α → ℚ) :
    ∀ l : List α, l.Pairwise (fun a b => ts b ≤ ts a) →
      ∀ z, l.getLast? = some z → ∀ x ∈ l, ts z ≤ ts x := by
  intro l
  induction l with
  | nil => intro _ z hz; simp at hz
  | cons a t ih =>
    intro hp z hz x hx
    rcases List.pairwise_cons.mp hp with ⟨ha, ht⟩
    cases t with
    | nil =>
      have hz' : z = a := by simpa using hz.symm
      have hx' : x = a := by simpa using hx
      simp [hz', hx']
    | cons b t' =>
      rw [List.getLast?_cons_cons] at hz
      rcases List.mem_cons.mp hx with rfl | hx
      · exact ha z (List.mem_of_getLast?_eq_some hz)
      · exact ih ht z hz x hx

/-- Weakening the cutoff of the newest-to-oldest scan keeps every hit. -/
theorem any_takeWhile_mono {α : Type} (p q f : α → Bool)
    (hpq : ∀ x, p x = true → q x = true) :
    ∀ l : List α, (l.takeWhile p).any f = true → (l.takeWhile q).any f = true := by
  intro l
  induction l with
  | nil => simp
  | cons a t ih =>
    intro h
    by_cases hp : p a = true
    · rw [List.takeWhile_cons_of_pos hp] at h
      rw [List.takeWhile_cons_of_pos (hpq a hp)]
      simp only [List.any_cons, Bool.or_eq_true] at h ⊢
      rcases h with h | h
      · exact Or.inl h
      · exact Or.inr (ih h)
    · rw [List.takeWhile_cons_of_neg (by simpa using hp)] at h
      simp at h

/-- On a timestamp-descending list the newest-to-oldest collection loop
gathers exactly the filtered in-window elements. -/
theorem takeWhile_eq_filter_of_desc {α : Type} (ts : α → ℚ) (c : ℚ) :
    ∀ l : List α, l.Pairwise (fun a b => ts b ≤ ts a) →
      l.takeWhile (fun e => decide (c ≤ ts e)) =
        l.filter (fun e => decide (c ≤ ts e)) := by
  intro l
  induction l with
  | nil => intro _; rfl
  | cons a t ih =>
    intro hp
    rcases List.pairwise_cons.mp hp with ⟨ha, ht⟩
    by_cases hc : c ≤ ts a
    · rw [List.takeWhile_cons_of_pos (by simpa using hc),
        List.filter_cons_of_pos (by simpa using hc), ih ht]
    · rw [List.takeWhile_cons_of_neg (by simpa using hc),
        List.filter_cons_of_neg (by simpa using hc)]
      symm
      rw [List.filter_eq_nil_iff]
      intro x hx
      simp only [decide_eq_true_eq]
      intro hcx
      exact hc (le_trans hcx (ha x hx))

/-- On a timestamp-ascending list, dropping the below-cutoff prefix yields
exactly the filtered in-window elements. -/
theorem dropWhile_eq_filter_of_asc {α : Type} (ts : α → ℚ) (c : ℚ) :
    ∀ l : List α, l.Pairwise (fun a b => ts a ≤ ts b) →
      l.dropWhile (fun e => !(decide (c ≤ ts e))) =
        l.filter (fun e => decide (c ≤ ts e)) := by
  intro l
  induction l with
  | nil => intro _; rfl
  | cons a t ih =>
    intro hp
    rcases List.pairwise_cons.mp hp with ⟨ha, ht⟩
    by_cases hc : c ≤ ts a
    · rw [List.dropWhile_cons_of_neg (by simpa using hc),
        List.filter_cons_of_pos (by simpa using hc)]
      congr 1
      symm
      rw [List.filter_eq_self]
      intro x hx
      simp only [decide_eq_true_eq]
      exact le_trans hc (ha x hx)
    · rw [List.dropWhile_cons_of_pos (by simpa using hc),
        List.filter_cons_of_neg (by simpa using hc)]
      exact ih ht

/-- Dropping the dead prefix of a split list stops no later than a marked
in-window element. -/
theorem dropWhile_not_append {α : Type} (p : α → Bool) (a : α)
    (rest : List α) (hpa : p a = true) :
    ∀ l1 : List α, (l1 ++ a :: rest).dropWhile (fun x => !(p x)) =
      l1.dropWhile (fun x => !(p x)) ++ a :: rest := by
  intro l1
  induction l1 with
  | nil =>
    simp only [List.nil_append, List.dropWhile_nil]
    rw [List.dropWhile_cons_of_neg (by simp [hpa])]
  | cons x xs ih =>
    by_cases hx : p x = true
    · rw [List.cons_append, List.dropWhile_cons_of_neg (by simp [hx]),
        List.dropWhile_cons_of_neg (by simp [hx]), List.cons_append]
    · rw [List.cons_append, List.dropWhile_cons_of_pos (by simp [hx]),
        List.dropWhile_cons_of_pos (by simp [hx]), ih]

/-- The adjacent-pair loop of _detect_edge succeeds exactly when the list
splits around an adjacent pair satisfying the two tests. -/
theorem hasPairBy_eq_true_iff (pa pb : InEntry → Bool) :
    ∀ l, hasPairBy pa pb l = true ↔
      ∃ l1 a b l2, l = l1 ++ a :: b :: l2 ∧ pa a = true ∧ pb b = true := by
  intro l
  induction l with
  | nil =>
    simp only [hasPairBy, Bool.false_eq_true, false_iff]
    rintro ⟨l1, a, b, l2, heq, -, -⟩
    exact absurd heq.symm (by simp)
  | cons a t ih =>
    cases t with
    | nil =>
      simp only [hasPairBy, Bool.false_eq_true, false_iff]
      rintro ⟨l1, x, y, l2, heq, -, -⟩
      have := congrArg List.length heq
      simp at this
      omega
    | cons b rest =>
      constructor
      · intro h
        rw [hasPairBy] at h
        rcases Bool.or_eq_true_iff.mp h with h | h
        · rcases Bool.and_eq_true_iff.mp h with ⟨hx, hy⟩
          exact ⟨[], a, b, rest, rfl, hx, hy⟩
        · rcases ih.mp h with ⟨l1, x, y, l2, heq, hx, hy⟩
          exact ⟨a :: l1, x, y, l2, by rw [List.cons_append, heq], hx, hy⟩
      · rintro ⟨l1, x, y, l2, heq, hx, hy⟩
        rw [hasPairBy]
        cases l1 with
        | nil =>
          simp only [List.nil_append] at heq
          injection heq with h1 h2
          injection h2 with h2 h3
          subst h1; subst h2
          simp [hx, hy]
        | cons c l1' =>
          rw [List.cons_append] at heq
          injection heq with h1 h2
          exact Bool.or_eq_true_iff.mpr (Or.inr (ih.mpr ⟨l1', x, y, l2, h2, hx, hy⟩))

/-- The chronological in-window list: reversing the collection loop's
result gives, on a sorted history, the suffix of the history at or after
the cutoff. -/
theorem windowChron_eq (logs : List InEntry) (c : ℚ)
    (hsort : logs.Pairwise (fun a b => a.timestamp ≤ b.timestamp)) :
    (windowSamples logs c).reverse =
      logs.dropWhile (fun e => !(decide (c ≤ e.timestamp))) := by
  have hdesc : logs.reverse.Pairwise (fun a b => b.timestamp ≤ a.timestamp) :=
    List.pairwise_reverse.mpr hsort
  rw [windowSamples, takeWhile_eq_filter_of_desc InEntry.timestamp c logs.reverse hdesc,
    List.filter_reverse, List.reverse_reverse,
    dropWhile_eq_filter_of_asc InEntry.timestamp c logs hsort]

/-! ## Claims about the comms-health watchdog -/

/-- C3: check_comms_health is true on an empty output history; false when
the newest entry is older than now minus the timeout; and otherwise true
exactly when some entry inside the window (scanned newest-to-oldest, a
missing VERSION key counting as 0) has a nonzero VERSION. -/
theorem check_comms_health_spec (logs : List OutEntry) (now t : ℚ)
    (hsort : logs.Pairwise (fun a b => a.timestamp ≤ b.timestamp))
    (hbound : ∀ e ∈ logs, e.timestamp ≤ now) :
    check_comms_health logs now t = true ↔
      (logs = [] ∨
       ((∃ newest, logs.getLast? = some newest ∧ now - t ≤ newest.timestamp) ∧
        ∃ e ∈ logs, now - t ≤ e.timestamp ∧ e.timestamp ≤ now ∧ entryVersion e ≠ 0)) := by
  have hdesc : logs.reverse.Pairwise (fun a b => b.timestamp ≤ a.timestamp) :=
    List.pairwise_reverse.mpr hsort
  cases hrev : logs.reverse with
  | nil =>
    have hnil : logs = [] := by simpa using congrArg List.reverse hrev
    simp [check_comms_health, hrev, hnil]
  | cons newest rest =>
    have hne : logs ≠ [] := by
      intro h
      rw [h] at hrev
      simp at hrev
    have hlast : logs.getLast? = some newest := by
      rw [← List.head?_reverse, hrev]
      rfl
    rw [hrev] at hdesc
    by_cases hlt : newest.timestamp < now - t
    · have hlhs : check_comms_health logs now t = false := by
        simp [check_comms_health, hrev, hlt]
      rw [hlhs]
      simp only [Bool.false_eq_true, false_iff]
      rintro (h | ⟨⟨n', hn', hfresh⟩, -⟩)
      · exact hne h
      · rw [hlast] at hn'
        cases hn'
        exact absurd hlt (not_lt.mpr hfresh)
    · have hlhs : check_comms_health logs now t =
          ((newest :: rest).takeWhile (fun e => decide (now - t ≤ e.timestamp))).any
            (fun e => entryVersion e != 0) := by
        simp [check_comms_health, hrev, hlt]
      rw [hlhs]
      rw [List.any_eq_true]
      constructor
      · rintro ⟨x, hx, hv⟩
        have hx' := (mem_takeWhile_ge OutEntry.timestamp (now - t) (newest :: rest)
          hdesc x).mp hx
        have hxl : x ∈ logs := by
          rw [← List.mem_reverse, hrev]
          exact hx'.1
        refine Or.inr ⟨⟨newest, hlast, not_lt.mp hlt⟩, x, hxl, hx'.2, hbound x hxl, ?_⟩
        simpa using hv
      · rintro (h | ⟨-, e, he, hcut, -, hv⟩)
        · exact absurd h hne
        · have herev : e ∈ logs.reverse := List.mem_reverse.mpr he
          rw [hrev] at herev
          refine ⟨e, (mem_takeWhile_ge OutEntry.timestamp (now - t) (newest :: rest)
            hdesc e).mpr ⟨herev, hcut⟩, by simpa using hv⟩

/-- C6: for a fixed output history and current time, check_comms_health is
monotone in the timeout: enlarging the window cannot turn a true verdict
false. -/
theorem check_comms_health_timeout_mono (logs : List OutEntry) (now t1 t2 : ℚ)
    (h12 : t1 ≤ t2) :
    check_comms_health logs now t1 = true → check_comms_health logs now t2 = true := by
  cases hrev : logs.reverse with
  | nil => simp [check_comms_health, hrev]
  | cons newest rest =>
    intro h
    by_cases hlt : newest.timestamp < now - t1
    · simp [check_comms_health, hrev, hlt] at h
    · have h' : ((newest :: rest).takeWhile
          (fun e => decide (now - t1 ≤ e.timestamp))).any
            (fun e => entryVersion e != 0) = true := by
        simpa [check_comms_health, hrev, hlt] using h
      have hlt2 : ¬ newest.timestamp < now - t2 := by
        rw [not_lt] at hlt ⊢
        linarith
      have hmono := any_takeWhile_mono
        (fun e : OutEntry => decide (now - t1 ≤ e.timestamp))
        (fun e : OutEntry => decide (now - t2 ≤ e.timestamp))
        (fun e => entryVersion e != 0)
        (fun x hx => by
          simp only [decide_eq_true_eq] at hx ⊢
          linarith)
        (newest :: rest) h'
      simpa [check_comms_health, hrev, hlt2] using hmono

/-- Witness for C3: the spec equivalence evaluated on a one-entry history
with a live heartbeat inside a 2 s window at time 1. -/
theorem check_comms_health_spec_witness :
    check_comms_health commLogs 1 2 = true ↔
      (commLogs = [] ∨
       ((∃ newest, commLogs.getLast? = some newest ∧ (1:ℚ) - 2 ≤ newest.timestamp) ∧
        ∃ e ∈ commLogs, (1:ℚ) - 2 ≤ e.timestamp ∧ e.timestamp ≤ 1 ∧ entryVersion e ≠ 0)) :=
  check_comms_health_spec commLogs 1 2 (by simp [commLogs]) (by
    intro e he
    simp only [commLogs, List.mem_singleton] at he
    subst he
    norm_num)

/-- Witness for C6: growing the timeout from 2 s to 3 s keeps the healthy
verdict on the concrete one-entry history. -/
theorem check_comms_health_timeout_mono_witness :
    check_comms_health commLogs 1 3 = true :=
  check_comms_health_timeout_mono commLogs 1 2 3 (by norm_num)
    (by norm_num [check_comms_health, commLogs, entryVersion, kVERSION])

/-! ## Claims about extended_hold -/

/-- Counterexample for C2 as frozen: with a single-entry history whose
sample sits exactly at the window cutoff, every in-window sample of E_Stop
equals the requested value and the oldest covered sample is at (hence at or
before) now minus the hold, yet extended_hold returns false, because the
code first demands at least two entries of history. -/
theorem extended_hold_claim_cex :
    extended_hold cexHoldLogs 1 lEStop false 1 = false ∧
    (∀ e ∈ cexHoldLogs, (1:ℚ) - 1 ≤ e.timestamp → sample e lEStop = some false) ∧
    (∃ old ∈ cexHoldLogs, (1:ℚ) - 1 ≤ old.timestamp ∧ old.timestamp ≤ 1 ∧
      (∀ e ∈ cexHoldLogs, (1:ℚ) - 1 ≤ e.timestamp → old.timestamp ≤ e.timestamp) ∧
      old.timestamp ≤ 1 - 1) := by
  refine ⟨rfl, ?_, ?_⟩
  · intro e he _
    simp only [cexHoldLogs, List.mem_singleton] at he
    subst he
    rfl
  · refine ⟨⟨0, [(lEStop, false)]⟩, by simp [cexHoldLogs, lEStop], by norm_num,
      by norm_num, ?_, by norm_num⟩
    intro e he _
    simp only [cexHoldLogs, List.mem_singleton] at he
    subst he
    norm_num

/-- C2 (amended): extended_hold is true exactly when the input history has
at least two entries, every in-window sample of the label equals the target
value, and the oldest sample covered by the window has a timestamp at or
before now minus the hold.  (The two-entry guard is the amendment; the rest
is the frozen claim.) -/
theorem extended_hold_spec (logs : List InEntry) (now : ℚ) (sig : String)
    (v : Bool) (hq : ℚ)
    (hsort : logs.Pairwise (fun a b => a.timestamp ≤ b.timestamp))
    (hbound : ∀ e ∈ logs, e.timestamp ≤ now) :
    extended_hold logs now sig v hq = true ↔
      (2 ≤ logs.length ∧
       (∀ e ∈ logs, now - hq ≤ e.timestamp → sample e sig = some v) ∧
       (∃ old ∈ logs, now - hq ≤ old.timestamp ∧ old.timestamp ≤ now ∧
         (∀ e ∈ logs, now - hq ≤ e.timestamp → old.timestamp ≤ e.timestamp) ∧
         old.timestamp ≤ now - hq)) := by
  have hdesc : logs.reverse.Pairwise (fun a b => b.timestamp ≤ a.timestamp) :=
    List.pairwise_reverse.mpr hsort
  have hwdesc : (windowSamples logs (now - hq)).Pairwise
      (fun a b => b.timestamp ≤ a.timestamp) :=
    List.Pairwise.sublist (List.takeWhile_sublist _) hdesc
  have hmem : ∀ x, x ∈ windowSamples logs (now - hq) ↔
      x ∈ logs ∧ now - hq ≤ x.timestamp := by
    intro x
    rw [windowSamples,
      mem_takeWhile_ge InEntry.timestamp (now - hq) logs.reverse hdesc x,
      List.mem_reverse]
  by_cases hlen : logs.length < 2
  · have hlhs : extended_hold logs now sig v hq = false := by
      simp [extended_hold, hlen]
    rw [hlhs]
    simp only [Bool.false_eq_true, false_iff]
    rintro ⟨h2, -, -⟩
    omega
  · cases hw : (windowSamples logs (now - hq)).getLast? with
    | none =>
      have hnil : windowSamples logs (now - hq) = [] := by
        cases hwl : windowSamples logs (now - hq) with
        | nil => rfl
        | cons c cs =>
          rw [hwl] at hw
          simp [List.getLast?_eq_getLast] at hw
      have hlhs : extended_hold logs now sig v hq = false := by
        simp [extended_hold, hlen, hw]
      rw [hlhs]
      simp only [Bool.false_eq_true, false_iff]
      rintro ⟨-, -, old, hold, hcut, -, -, -⟩
      have hmo : old ∈ windowSamples logs (now - hq) := (hmem old).mpr ⟨hold, hcut⟩
      rw [hnil] at hmo
      simp at hmo
    | some oldest =>
      have holdin : oldest ∈ windowSamples logs (now - hq) :=
        List.mem_of_getLast?_eq_some hw
      have holdlogs := (hmem oldest).mp holdin
      by_cases hlate : now - hq < oldest.timestamp
      · have hlhs : extended_hold logs now sig v hq = false := by
          simp [extended_hold, hlen, hw, hlate]
        rw [hlhs]
        simp only [Bool.false_eq_true, false_iff]
        rintro ⟨-, -, old, hold, hcut, -, -, hle⟩
        have hmo : old ∈ windowSamples logs (now - hq) := (hmem old).mpr ⟨hold, hcut⟩
        have := getLast_ts_le InEntry.timestamp (windowSamples logs (now - hq))
          hwdesc oldest hw old hmo
        linarith
      · have hlhs : extended_hold logs now sig v hq =
            (windowSamples logs (now - hq)).all (fun e => sample e sig == some v) := by
          simp [extended_hold, hlen, hw, hlate]
        rw [hlhs, List.all_eq_true]
        constructor
        · intro hall
          refine ⟨by omega, ?_, oldest, holdlogs.1, holdlogs.2,
            hbound oldest holdlogs.1, ?_, not_lt.mp hlate⟩
          · intro e he hcut
            have := hall e ((hmem e).mpr ⟨he, hcut⟩)
            simpa using this
          · intro e he hcut
            exact le_trans (not_lt.mp hlate) hcut
        · rintro ⟨-, hallv, -⟩
          intro x hx
          have hx' := (hmem x).mp hx
          simpa using hallv x hx'.1 hx'.2

/-- Witness for C2's amended theorem: the equivalence evaluated on the
two-entry all-false E_Stop history over a 1 s hold at time 1. -/
theorem extended_hold_spec_witness :
    extended_hold witHoldLogs 1 lEStop false 1 = true ↔
      (2 ≤ witHoldLogs.length ∧
       (∀ e ∈ witHoldLogs, (1:ℚ) - 1 ≤ e.timestamp → sample e lEStop = some false) ∧
       (∃ old ∈ witHoldLogs, (1:ℚ) - 1 ≤ old.timestamp ∧ old.timestamp ≤ 1 ∧
         (∀ e ∈ witHoldLogs, (1:ℚ) - 1 ≤ e.timestamp → old.timestamp ≤ e.timestamp) ∧
         old.timestamp ≤ 1 - 1)) :=
  extended_hold_spec witHoldLogs 1 lEStop false 1
    (by norm_num [witHoldLogs])
    (by
      intro e he
      simp only [witHoldLogs, List.mem_cons, List.mem_singleton] at he
      rcases he with rfl | rfl | h
      · norm_num
      · norm_num
      · simp at h)

/-! ## Claims about edge detection -/

/-- The window-splitting characterisation shared by the rising and falling
cases: an adjacent hit inside the chronological window list is the same as
an adjacent pair of in-window history entries satisfying the two tests. -/
theorem window_pair_iff (logs : List InEntry) (c now : ℚ)
    (pa pb : InEntry → Bool)
    (hsort : logs.Pairwise (fun a b => a.timestamp ≤ b.timestamp))
    (hbound : ∀ e ∈ logs, e.timestamp ≤ now) :
    hasPairBy pa pb (windowSamples logs c).reverse = true ↔
      ∃ l1 a b l2, logs = l1 ++ a :: b :: l2 ∧
        c ≤ a.timestamp ∧ a.timestamp ≤ now ∧
        c ≤ b.timestamp ∧ b.timestamp ≤ now ∧
        pa a = true ∧ pb b = true := by
  rw [windowChron_eq logs c hsort, hasPairBy_eq_true_iff]
  have hfil : logs.dropWhile (fun e => !(decide (c ≤ e.timestamp))) =
      logs.filter (fun e => decide (c ≤ e.timestamp)) :=
    dropWhile_eq_filter_of_asc InEntry.timestamp c logs hsort
  constructor
  · rintro ⟨l1, a, b, l2, heq, hpa, hpb⟩
    have hsplit : logs =
        (logs.takeWhile (fun e => !(decide (c ≤ e.timestamp)))) ++
          (l1 ++ a :: b :: l2) := by
      rw [← heq, List.takeWhile_append_dropWhile]
    have hamem : a ∈ logs.filter (fun e => decide (c ≤ e.timestamp)) := by
      rw [← hfil, heq]; simp
    have hbmem : b ∈ logs.filter (fun e => decide (c ≤ e.timestamp)) := by
      rw [← hfil, heq]; simp
    have ha := List.mem_filter.mp hamem
    have hb := List.mem_filter.mp hbmem
    refine ⟨logs.takeWhile (fun e => !(decide (c ≤ e.timestamp))) ++ l1, a, b, l2,
      by rw [← List.append_assoc] at hsplit; exact hsplit,
      by simpa using ha.2, hbound a ha.1, by simpa using hb.2, hbound b hb.1,
      hpa, hpb⟩
  · rintro ⟨l1, a, b, l2, heq, hca, -, hcb, -, hpa, hpb⟩
    subst heq
    refine ⟨l1.dropWhile (fun e => !(decide (c ≤ e.timestamp))), a, b, l2, ?_,
      hpa, hpb⟩
    exact dropWhile_not_append (fun e => decide (c ≤ e.timestamp)) a (b :: l2)
      (by simpa using hca) l1

/-- C5: rising_edge is true exactly when two consecutive history samples of
the label inside the window go False then True, and falling_edge exactly
when they go True then False; with fewer than two in-window samples both
return false (the window conjuncts of the right-hand sides force two
in-window samples). -/
theorem edge_detection_spec (logs : List InEntry) (now : ℚ) (sig : String)
    (wms : ℚ)
    (hsort : logs.Pairwise (fun a b => a.timestamp ≤ b.timestamp))
    (hbound : ∀ e ∈ logs, e.timestamp ≤ now) :
    (rising_edge logs now sig wms = true ↔
      ∃ l1 a b l2, logs = l1 ++ a :: b :: l2 ∧
        now - wms / 1000 ≤ a.timestamp ∧ a.timestamp ≤ now ∧
        now - wms / 1000 ≤ b.timestamp ∧ b.timestamp ≤ now ∧
        sample a sig = some false ∧ sample b sig = some true) ∧
    (falling_edge logs now sig wms = true ↔
      ∃ l1 a b l2, logs = l1 ++ a :: b :: l2 ∧
        now - wms / 1000 ≤ a.timestamp ∧ a.timestamp ≤ now ∧
        now - wms / 1000 ≤ b.timestamp ∧ b.timestamp ≤ now ∧
        sample a sig = some true ∧ sample b sig = some false) := by
  have hcore : ∀ pa pb : InEntry → Bool,
      ((if logs.length < 2 then false
        else if (windowSamples logs (now - wms / 1000)).length < 2 then false
        else hasPairBy pa pb (windowSamples logs (now - wms / 1000)).reverse) = true ↔
       ∃ l1 a b l2, logs = l1 ++ a :: b :: l2 ∧
         now - wms / 1000 ≤ a.timestamp ∧ a.timestamp ≤ now ∧
         now - wms / 1000 ≤ b.timestamp ∧ b.timestamp ≤ now ∧
         pa a = true ∧ pb b = true) := by
    intro pa pb
    by_cases hlen : logs.length < 2
    · rw [if_pos hlen]
      simp only [Bool.false_eq_true, false_iff]
      rintro ⟨l1, a, b, l2, heq, -⟩
      have := congrArg List.length heq
      simp at this
      omega
    · rw [if_neg hlen]
      by_cases hw2 : (windowSamples logs (now - wms / 1000)).length < 2
      · rw [if_pos hw2]
        simp only [Bool.false_eq_true, false_iff]
        rintro ⟨l1, a, b, l2, heq, hca, -, hcb, -, -, -⟩
        have hchron : (windowSamples logs (now - wms / 1000)).reverse =
            l1.dropWhile (fun e => !(decide (now - wms / 1000 ≤ e.timestamp))) ++
              a :: b :: l2 := by
          rw [windowChron_eq logs (now - wms / 1000) hsort, heq]
          exact dropWhile_not_append
            (fun e => decide (now - wms / 1000 ≤ e.timestamp)) a (b :: l2)
            (by simpa using hca) l1
        have := congrArg List.length hchron
        simp at this
        omega
      · rw [if_neg hw2]
        exact window_pair_iff logs (now - wms / 1000) now pa pb hsort hbound
  constructor
  · have hr : rising_edge logs now sig wms =
        (if logs.length < 2 then false
         else if (windowSamples logs (now - wms / 1000)).length < 2 then false
         else hasPairBy (fun e => sample e sig == some false)
           (fun e => sample e sig == some true)
           (windowSamples logs (now - wms / 1000)).reverse) := by
      simp only [rising_edge, detect_edge]
    rw [hr, hcore]
    constructor
    · rintro ⟨l1, a, b, l2, heq, h1, h2, h3, h4, h5, h6⟩
      exact ⟨l1, a, b, l2, heq, h1, h2, h3, h4, by simpa using h5, by simpa using h6⟩
    · rintro ⟨l1, a, b, l2, heq, h1, h2, h3, h4, h5, h6⟩
      exact ⟨l1, a, b, l2, heq, h1, h2, h3, h4, by simpa using h5, by simpa using h6⟩
  · have hf : falling_edge logs now sig wms =
        (if logs.length < 2 then false
         else if (windowSamples logs (now - wms / 1000)).length < 2 then false
         else hasPairBy (fun e => sample e sig == some true)
           (fun e => sample e sig == some false)
           (windowSamples logs (now - wms / 1000)).reverse) := by
      simp only [falling_edge, detect_edge]
    rw [hf, hcore]
    constructor
    · rintro ⟨l1, a, b, l2, heq, h1, h2, h3, h4, h5, h6⟩
      exact ⟨l1, a, b, l2, heq, h1, h2, h3, h4, by simpa using h5, by simpa using h6⟩
    · rintro ⟨l1, a, b, l2, heq, h1, h2, h3, h4, h5, h6⟩
      exact ⟨l1, a, b, l2, heq, h1, h2, h3, h4, by simpa using h5, by simpa using h6⟩

/-- Witness for C5: the equivalence evaluated on a concrete two-entry
history with a rising Klaar_Geweeg_Btn transition, a 2000 ms window and
time 1. -/
theorem edge_detection_spec_witness :
    (rising_edge edgeLogs 1 lKlaar 2000 = true ↔
      ∃ l1 a b l2, edgeLogs = l1 ++ a :: b :: l2 ∧
        (1:ℚ) - 2000 / 1000 ≤ a.timestamp ∧ a.timestamp ≤ 1 ∧
        (1:ℚ) - 2000 / 1000 ≤ b.timestamp ∧ b.timestamp ≤ 1 ∧
        sample a lKlaar = some false ∧ sample b lKlaar = some true) ∧
    (falling_edge edgeLogs 1 lKlaar 2000 = true ↔
      ∃ l1 a b l2, edgeLogs = l1 ++ a :: b :: l2 ∧
        (1:ℚ) - 2000 / 1000 ≤ a.timestamp ∧ a.timestamp ≤ 1 ∧
        (1:ℚ) - 2000 / 1000 ≤ b.timestamp ∧ b.timestamp ≤ 1 ∧
        sample a lKlaar = some true ∧ sample b lKlaar = some false) :=
  edge_detection_spec edgeLogs 1 lKlaar 2000
    (by norm_num [edgeLogs])
    (by
      intro e he
      simp only [edgeLogs, List.mem_cons, List.mem_singleton] at he
      rcases he with rfl | rfl | h
      · norm_num
      · norm_num
      · simp at h)

/-! ## Claims about Procon.set type checking -/

/-- Counterexample for C8 as frozen: a Python boolean passes the register
slot's `isinstance(value, int)` check (bool is a subclass of int), so
set('VERSION', True) returns true and overwrites the register - the claim's
"registers accept only unsigned-16-bit integers" fails; likewise 70000 is
written with no 16-bit range check. -/
theorem procon_set_register_type_cex :
    (procon_set initProcon kVERSION (PyVal.pybool true)).1 = true ∧
    (procon_set initProcon kVERSION (PyVal.pybool true)).2.outputClient.hregs =
      [(0, PyVal.pybool true)] ∧
    (procon_set initProcon kVERSION (PyVal.pyint 70000)).1 = true := by
  refine ⟨?_, ?_, ?_⟩ <;> decide

/-- One device's _set_to_device refusal: an unresolved label or a failed
isinstance check returns false without touching either client. -/
theorem set_to_device_refuses (ps : ProconState) (dev label : String)
    (v : PyVal) (h : deviceRefuses dev label v = true) :
    set_to_device ps dev label v = (false, ps) := by
  unfold deviceRefuses at h
  unfold set_to_device
  cases hga : get_address dev label with
  | none => rfl
  | some p =>
    rw [hga] at h
    obtain ⟨addr, rt⟩ := p
    cases rt with
    | coils =>
      cases v with
      | pybool b => simp [isinstance_bool] at h
      | pyint n => rfl
      | pyfloat q => rfl
      | pystr s => rfl
      | pynone => rfl
    | registers =>
      have hint : isinstance_int v = false := by simpa using h
      simp [hint]

/-- C8 (amended): set(label, value) returns false and performs no write
whenever the value fails the resolved slot's Python isinstance check -
coils accept only booleans, registers accept any value of Python int type
(booleans included, with no unsigned-16-bit range restriction) - and an
unresolved label likewise returns false without writing.  `setRefuses`
states exactly that both device attempts refuse. -/
theorem procon_set_refusal_spec (label : String) (value : PyVal)
    (ps : ProconState) (h : setRefuses label value = true) :
    procon_set ps label value = (false, ps) := by
  rcases Bool.and_eq_true_iff.mp (by simpa [setRefuses] using h) with ⟨hout, hin⟩
  have ho := set_to_device_refuses ps dOUTPUT label value hout
  have hi := set_to_device_refuses ps dINPUT label value hin
  simp only [procon_set, ho]
  simpa using hi

/-- Witness for C8's amended theorem: an integer aimed at the MOTOR_2 coil
is refused by both devices and the call returns false leaving both clients
untouched. -/
theorem procon_set_refusal_spec_witness :
    procon_set initProcon lMOTOR2 (PyVal.pyint 5) = (false, initProcon) :=
  procon_set_refusal_spec lMOTOR2 (PyVal.pyint 5) initProcon (by decide)

/-! ## Claims about RuleEngine.evaluate -/

/-- Stepping over a rule whose condition raises: the loop logs one ERROR
entry and continues with the remaining rules, the raising rule unchanged. -/
theorem evalRules_cons_cond_error {δ σ : Type} (now : ℚ) (r : EngRule δ σ)
    (rs : List (EngRule δ σ)) (data : δ) (es : EngState σ) (e : String)
    (hen : r.enabled = true)
    (hcond : r.condition data es.state = Except.error e) :
    evalRules now data (r :: rs) es =
      ((evalRules now data rs
          ⟨es.state, es.activeRules, es.eventLog ++ [(lvlERROR, errMsg r.name e)]⟩).1,
       r :: (evalRules now data rs
          ⟨es.state, es.activeRules, es.eventLog ++ [(lvlERROR, errMsg r.name e)]⟩).2) := by
  simp only [evalRules, hen, hcond]
  simp

/-- Stepping over a rule whose condition holds and whose action raises: the
name is recorded, the counters stamped, one ERROR entry logged, and the loop
continues with the remaining rules. -/
theorem evalRules_cons_action_error {δ σ : Type} (now : ℚ) (r : EngRule δ σ)
    (rs : List (EngRule δ σ)) (data : δ) (es : EngState σ) (e : String)
    (hen : r.enabled = true)
    (hcond : r.condition data es.state = Except.ok true)
    (hact : r.action es.state = Except.error e) :
    evalRules now data (r :: rs) es =
      ((evalRules now data rs
          ⟨es.state, es.activeRules ++ [r.name],
            es.eventLog ++ [(lvlERROR, errMsg r.name e)]⟩).1,
       { r with triggerCount := r.triggerCount + 1, lastTriggered := some now } ::
         (evalRules now data rs
           ⟨es.state, es.activeRules ++ [r.name],
             es.eventLog ++ [(lvlERROR, errMsg r.name e)]⟩).2) := by
  simp only [evalRules, hen, hcond, hact]
  simp

/-- The per-scan active-rule list only grows during the rule loop. -/
theorem evalRules_active_extend {δ σ : Type} (now : ℚ) (data : δ) :
    ∀ (rs : List (EngRule δ σ)) (es : EngState σ),
      ∃ l, (evalRules now data rs es).1.activeRules = es.activeRules ++ l := by
  intro rs
  induction rs with
  | nil => intro es; exact ⟨[], by simp [evalRules]⟩
  | cons r rs ih =>
    intro es
    by_cases hen : r.enabled = false
    · rcases ih es with ⟨l, hl⟩
      refine ⟨l, ?_⟩
      simp only [evalRules, if_pos hen]
      exact hl
    · simp only [evalRules, if_neg hen]
      cases hc : r.condition data es.state with
      | error e =>
        rcases ih ⟨es.state, es.activeRules,
          es.eventLog ++ [(lvlERROR, errMsg r.name e)]⟩ with ⟨l, hl⟩
        exact ⟨l, hl⟩
      | ok b =>
        cases b with
        | false => exact ih es
        | true =>
          cases ha : r.action es.state with
          | error e =>
            rcases ih ⟨es.state, es.activeRules ++ [r.name],
              es.eventLog ++ [(lvlERROR, errMsg r.name e)]⟩ with ⟨l, hl⟩
            refine ⟨[r.name] ++ l, ?_⟩
            rw [← List.append_assoc]
            exact hl
          | ok s' =>
            rcases ih ⟨s', es.activeRules ++ [r.name], es.eventLog⟩ with ⟨l, hl⟩
            refine ⟨[r.name] ++ l, ?_⟩
            rw [← List.append_assoc]
            exact hl

/-- C9: evaluate clears active_rules at the start of each scan while the
persistent state dict is untouched by the engine itself, and a rule whose
condition or action raises merely contributes one ERROR log entry before
evaluation continues with the next rule - evaluate is a total function, so
no exception escapes to the caller.  Part one: the result never depends on
the incoming active_rules.  Part two: with no rules, the scan only clears
active_rules.  Parts three and four: the exception continuations. -/
theorem evaluate_scan_robustness {δ σ : Type} :
    (∀ (now : ℚ) (rules : List (EngRule δ σ)) (data : δ) (es : EngState σ)
        (l : List String),
      evaluate now rules data { es with activeRules := l } =
        evaluate now rules data es) ∧
    (∀ (now : ℚ) (data : δ) (es : EngState σ),
      evaluate now ([] : List (EngRule δ σ)) data es =
        ({ es with activeRules := [] }, [])) ∧
    (∀ (now : ℚ) (r : EngRule δ σ) (rs : List (EngRule δ σ)) (data : δ)
        (es : EngState σ) (e : String),
      r.enabled = true → r.condition data es.state = Except.error e →
      evaluate now (r :: rs) data es =
        ((evalRules now data rs
            ⟨es.state, [], es.eventLog ++ [(lvlERROR, errMsg r.name e)]⟩).1,
         r :: (evalRules now data rs
            ⟨es.state, [], es.eventLog ++ [(lvlERROR, errMsg r.name e)]⟩).2)) ∧
    (∀ (now : ℚ) (r : EngRule δ σ) (rs : List (EngRule δ σ)) (data : δ)
        (es : EngState σ) (e : String),
      r.enabled = true → r.condition data es.state = Except.ok true →
      r.action es.state = Except.error e →
      evaluate now (r :: rs) data es =
        ((evalRules now data rs
            ⟨es.state, [r.name], es.eventLog ++ [(lvlERROR, errMsg r.name e)]⟩).1,
         { r with triggerCount := r.triggerCount + 1, lastTriggered := some now } ::
           (evalRules now data rs
             ⟨es.state, [r.name],
               es.eventLog ++ [(lvlERROR, errMsg r.name e)]⟩).2)) := by
  refine ⟨?_, ?_, ?_, ?_⟩
  · intro now rules data es l
    rfl
  · intro now data es
    rfl
  · intro now r rs data es e hen hcond
    exact evalRules_cons_cond_error now r rs data
      ⟨es.state, [], es.eventLog⟩ e hen hcond
  · intro now r rs data es e hen hcond hact
    exact evalRules_cons_action_error now r rs data
      ⟨es.state, [], es.eventLog⟩ e hen hcond hact

/-- Witness for C9: the two exception continuations evaluated on the
concrete raising rules, applied to the concrete engine state. -/
theorem evaluate_scan_robustness_witness :
    (evaluate 1 [condRaisingRule] 0 engSt0 =
      ((evalRules 1 0 ([] : List (EngRule Nat Nat))
          ⟨engSt0.state, [],
            engSt0.eventLog ++ [(lvlERROR, errMsg condRaisingRule.name msgBoom)]⟩).1,
       condRaisingRule :: (evalRules 1 0 ([] : List (EngRule Nat Nat))
          ⟨engSt0.state, [],
            engSt0.eventLog ++ [(lvlERROR, errMsg condRaisingRule.name msgBoom)]⟩).2)) ∧
    (evaluate 1 [actRaisingRule] 0 engSt0 =
      ((evalRules 1 0 ([] : List (EngRule Nat Nat))
          ⟨engSt0.state, [actRaisingRule.name],
            engSt0.eventLog ++ [(lvlERROR, errMsg actRaisingRule.name msgKaput)]⟩).1,
       { actRaisingRule with triggerCount := actRaisingRule.triggerCount + 1,
                             lastTriggered := some 1 } ::
         (evalRules 1 0 ([] : List (EngRule Nat Nat))
           ⟨engSt0.state, [actRaisingRule.name],
             engSt0.eventLog ++
               [(lvlERROR, errMsg actRaisingRule.name msgKaput)]⟩).2)) :=
  ⟨(@evaluate_scan_robustness Nat Nat).2.2.1 1 condRaisingRule [] 0 engSt0
      msgBoom rfl rfl,
   (@evaluate_scan_robustness Nat Nat).2.2.2 1 actRaisingRule [] 0 engSt0
      msgKaput rfl rfl rfl⟩

/-- C10: when a rule's condition holds and its action then raises, the
rule's name is still in the scan's active_rules and its trigger_count and
last_triggered stamp are still updated, because the bookkeeping precedes
the action call. -/
theorem action_error_keeps_bookkeeping {δ σ : Type} (now : ℚ)
    (r : EngRule δ σ) (rs : List (EngRule δ σ)) (data : δ) (es : EngState σ)
    (e : String) (hen : r.enabled = true)
    (hcond : r.condition data es.state = Except.ok true)
    (hact : r.action es.state = Except.error e) :
    r.name ∈ (evaluate now (r :: rs) data es).1.activeRules ∧
    (evaluate now (r :: rs) data es).2.head? =
      some { r with triggerCount := r.triggerCount + 1,
                    lastTriggered := some now } := by
  have heq := evalRules_cons_action_error now r rs data
    ⟨es.state, [], es.eventLog⟩ e hen hcond hact
  have hev : evaluate now (r :: rs) data es =
      evalRules now data (r :: rs) ⟨es.state, [], es.eventLog⟩ := rfl
  rw [hev, heq]
  dsimp only
  constructor
  · rcases evalRules_active_extend now data rs
      ⟨es.state, [] ++ [r.name], es.eventLog ++ [(lvlERROR, errMsg r.name e)]⟩
      with ⟨l, hl⟩
    rw [hl]
    simp
  · rfl

/-- Witness for C10: the bookkeeping survives the raising action of the
concrete fixture rule. -/
theorem action_error_keeps_bookkeeping_witness :
    actRaisingRule.name ∈ (evaluate 1 [actRaisingRule] 0 engSt0).1.activeRules ∧
    (evaluate 1 [actRaisingRule] 0 engSt0).2.head? =
      some { actRaisingRule with
               triggerCount := actRaisingRule.triggerCount + 1,
               lastTriggered := some 1 } :=
  action_error_keeps_bookkeeping 1 actRaisingRule [] 0 engSt0 msgKaput
    rfl rfl rfl

/-! ## Claims about the staged feeder rule scan -/

/-- Every action of the staged rule set is the arity-mismatch raise. -/
theorem setup_rules_actions_raise :
    ∀ r ∈ setup_rules, r.action = stagedAction := by
  intro r hr
  fin_cases hr <;> rfl

/-- The engine state survives the rule loop unchanged whenever every listed
rule's action raises: the only branch of the loop that replaces the state is
the one in which an action returns normally. -/
theorem evalRules_state_fixed {δ σ : Type} (now : ℚ) (data : δ) :
    ∀ (rules : List (EngRule δ σ)) (es : EngState σ),
      (∀ r ∈ rules, ∀ s, ∃ e, r.action s = Except.error e) →
      ((evalRules now data rules es).1).state = es.state := by
  intro rules
  induction rules with
  | nil => intro es _; rfl
  | cons r rs ih =>
    intro es h
    have hr := h r (List.mem_cons_self r rs)
    have hrs : ∀ x ∈ rs, ∀ s, ∃ e, x.action s = Except.error e :=
      fun x hx => h x (List.mem_cons_of_mem r hx)
    by_cases hen : r.enabled = false
    · simp only [evalRules, if_pos hen]
      exact ih es hrs
    · simp only [evalRules, if_neg hen]
      cases hc : r.condition data es.state with
      | error e =>
        exact ih ⟨es.state, es.activeRules,
          es.eventLog ++ [(lvlERROR, errMsg r.name e)]⟩ hrs
      | ok b =>
        cases b with
        | false => exact ih es hrs
        | true =>
          rcases hr es.state with ⟨e, he⟩
          rw [he]
          exact ih ⟨es.state, es.activeRules ++ [r.name],
            es.eventLog ++ [(lvlERROR, errMsg r.name e)]⟩ hrs

/-- No scan of the staged rule set changes the engine state: all twenty
actions raise TypeError at binding time. -/
theorem staged_scan_state_fixed (now : ℚ) (d : ScanData)
    (es : EngState StagedState) :
    ((evaluate now setup_rules d es).1).state = es.state := by
  have h : ∀ r ∈ setup_rules, ∀ s, ∃ e, r.action s = Except.error e := by
    intro r hr s
    rw [setup_rules_actions_raise r hr]
    exact ⟨msgTypeError, rfl⟩
  show ((evalRules now d setup_rules ⟨es.state, [], es.eventLog⟩).1).state
    = es.state
  exact evalRules_state_fixed now d setup_rules ⟨es.state, [], es.eventLog⟩ h

/-- The E-Stop hold fires on the concrete two-sample history: E_Stop read
false at times 0 and 1, scan at time 1 with a one-second hold. -/
theorem estop_hold_fires :
    extended_hold witHoldLogs 1 lEStop false 1 = true := by
  norm_num [extended_hold, witHoldLogs, windowSamples, sample, lEStop]

/-- C1: the claim demands that a scan in which extended_hold(E_Stop, False,
1.0) is true end with MOTOR_2 and MOTOR_3 false whatever earlier rules
wrote.  In the program the engine calls `rule.action(self.controller,
self.state)`, one positional argument short of EmergencyStopRule.action's
signature, so the action raises TypeError before
emergency_stop_all_motors() can run and the loop merely logs the error.
Conjunct one: no staged scan changes any state at all.  Conjunct two: the
E-Stop condition does return True on the concrete scan data.  Conjuncts
three and four: after that very scan, started with both motors energised,
both motors are still on - the exact opposite of the claim. -/
theorem estop_scan_leaves_motors_on :
    (∀ (now : ℚ) (d : ScanData) (es : EngState StagedState),
      ((evaluate now setup_rules d es).1).state = es.state) ∧
    EmergencyStopRule.condition estopScanData motorsOnState
      = Except.ok true ∧
    ((evaluate 1 setup_rules estopScanData estopEngSt).1).state.motor2
      = true ∧
    ((evaluate 1 setup_rules estopScanData estopEngSt).1).state.motor3
      = true := by
  refine ⟨staged_scan_state_fixed, ?_, ?_, ?_⟩
  · show Except.ok (extended_hold witHoldLogs 1 ("E_Stop") false 1)
      = Except.ok true
    rw [show ("E_Stop") = lEStop from rfl, estop_hold_fires]
  · rw [staged_scan_state_fixed]
    rfl
  · rw [staged_scan_state_fixed]
    rfl

/-- The trip level M1_Trip has objectively been held true for a full second
by the cold-boot scan at time 2: samples at times 1 and 2 inside the window
all read true and the oldest sits exactly at the cutoff. -/
theorem coldLogs_trip_held :
    extended_hold coldLogs 2 lM1Trip true 1 = true := by
  norm_num [extended_hold, coldLogs, windowSamples, sample, lM1Trip]
  decide

/-- C4: the claim's divergence is not the program's.  ReadyRule.condition
receives the engine's plain state dict as `mem` and unconditionally
executes `current_mode = mem.mode()`, raising AttributeError on every scan
(conjunct one), so the READY transition never fires at all - not even on a
cold boot whose every consulted level reads true and whose trips have
objectively been held true for over a second (conjunct two); after such a
scan the state dict is still empty and no _MODE was ever stored (conjuncts
three and four).  The instantaneous-level-versus-1 s-hold divergence the
claim describes would only be reachable if the condition ran to its return
statement, which it never does. -/
theorem ready_transition_never_fires :
    (∀ (d : ScanData) (s : StagedState),
      ReadyRule.condition d s = Except.error msgAttrErr) ∧
    extended_hold coldLogs 2 lM1Trip true 1 = true ∧
    ((evaluate 2 setup_rules readyStagedData readyEngSt).1).state.dict
      = [] ∧
    pyGet ((evaluate 2 setup_rules readyStagedData readyEngSt).1).state.dict
      kMODE = MemValue.vnone := by
  refine ⟨fun _ _ => rfl, coldLogs_trip_held, ?_, ?_⟩
  · rw [staged_scan_state_fixed]
    rfl
  · rw [staged_scan_state_fixed]
    rfl

/-- C7: the claim demands that entering ERROR_ESTOP leave the memory as
exactly the one-key map sending _MODE to ERROR_ESTOP.  In the program the
E-Stop action raises TypeError at binding time, so even with the hold
condition firing (conjunct one) a scan begun with a non-empty state dict
ends with that dict byte-for-byte unchanged (conjunct two), which is not
the claimed one-key map (conjunct three).  The ERROR_ESTOP mode is never
stored anywhere. -/
theorem estop_entry_leaves_memory_untouched :
    EmergencyStopRule.condition estopScanData estopEngSt7.state
      = Except.ok true ∧
    ((evaluate 1 setup_rules estopScanData estopEngSt7).1).state.dict
      = dict7 ∧
    dict7 ≠ [(kMODE, sERROR_ESTOP)] := by
  refine ⟨?_, ?_, ?_⟩
  · show Except.ok (extended_hold witHoldLogs 1 ("E_Stop") false 1)
      = Except.ok true
    rw [show ("E_Stop") = lEStop from rfl, estop_hold_fires]
  · rw [staged_scan_state_fixed]
    rfl
  · simp only [dict7, kC3Timer, kMODE, sERROR_ESTOP]
    decide

end BellaFruita
